import Mathlib

/-!
Shallow embedding of the SpatialPathDB spatial-statistics engine
(`spatial-engine/src/spatial_analysis/spatial_statistics.py` and
`density_estimation.py`) together with theorems checking the
natural-language specification against it.

Conventions of the embedding:
* coordinates are rationals (`ℚ`); quantities whose computation in the
  source needs `sqrt`, `π` or `exp` live in `ℝ`;
* a Python dict result is a structure; a key that is only present on some
  paths is an `Option` field;
* an uncaught Python exception is the `crash` constructor of the relevant
  outcome type — the functions themselves are total;
* labels (cell-type strings in the source) are modelled as naturals;
* the scipy `KDTree` queries are embedded by their documented semantics:
  `query_pairs(r)` = unordered index pairs at Euclidean distance ≤ r,
  `query_ball_tree(tree, r)` = for each point the indices (self included)
  at distance ≤ r, `query(x, k=2)` = the two smallest distances from `x`
  to the points of the tree (self included, so at distance 0).
-/

namespace SpatialPathDB

/-- A 2-D point (x, y). -/
abbrev Point : Type := ℚ × ℚ

/-- Squared Euclidean distance between two points. -/
def sqDist (p q : Point) : ℚ := (p.1 - q.1) ^ 2 + (p.2 - q.2) ^ 2

/-- Euclidean distance between two points (real-valued). -/
noncomputable def distR (p q : Point) : ℝ := Real.sqrt ((sqDist p q : ℚ) : ℝ)

/-- Decidable test `dist p q ≤ r`, phrased over squared distances so that it
is executable.  `scipy.spatial.KDTree` range queries use an inclusive
boundary and return nothing for a negative radius. -/
def withinR (p q : Point) (r : ℚ) : Bool :=
  decide (0 ≤ r) && decide (sqDist p q ≤ r ^ 2)

/-- `KDTree.query_pairs(r)`: the number of unordered index pairs of the
point list at distance ≤ r (executable form, used by `compute_ripleys_k`,
source lines 87–88). -/
def pairCount (pts : List Point) (r : ℚ) : ℕ :=
  ((Finset.range pts.length ×ˢ Finset.range pts.length).filter
    (fun ij => ij.1 < ij.2 ∧ withinR (pts.getD ij.1 (0, 0)) (pts.getD ij.2 (0, 0)) r)).card

open Classical in
/-- The same pair count phrased the way the spec words it: unordered index
pairs whose Euclidean distance is at most `r`.  Compared against
`pairCount` in the theorems. -/
noncomputable def pairCountSpec (pts : List Point) (r : ℚ) : ℕ :=
  ((Finset.range pts.length ×ˢ Finset.range pts.length).filter
    (fun ij => ij.1 < ij.2 ∧ distR (pts.getD ij.1 (0, 0)) (pts.getD ij.2 (0, 0)) ≤ (r : ℝ))).card

/-! ### `SpatialStatisticsEngine.compute_ripleys_k` (spatial_statistics.py 61–108) -/

/-- The dict returned on the success path of `compute_ripleys_k`. -/
@[ext]
structure RipleyResult where
  radii : List ℚ
  k_observed : List ℚ
  k_expected_csr : List ℝ
  l_function : List ℝ
  is_clustered : List Bool

/-- Outcome of `compute_ripleys_k`: the `{'error': ...}` dict, an uncaught
exception (`crash`), or the success dict. -/
inductive RipleyOutcome where
  | error (msg : String)
  | crash
  | ok (res : RipleyResult)

/-- Whether the outcome is the `{'error': ...}` dict. -/
def RipleyOutcome.isError : RipleyOutcome → Bool
  | .error _ => true
  | .crash => false
  | .ok _ => false

/-- `k_observed` of a success outcome (`[]` otherwise). -/
def RipleyOutcome.kObserved : RipleyOutcome → List ℚ
  | .error _ => []
  | .crash => []
  | .ok res => res.k_observed

/-- The per-radius K value computed at source line 91:
`area * count / (n * (n - 1)) if n > 1 else 0` with `count = 2 * |pairs|`. -/
def ripleyK (pts : List Point) (area : ℚ) (r : ℚ) : ℚ :=
  if 1 < pts.length then
    area * (2 * pairCount pts r) / ((pts.length : ℚ) * ((pts.length : ℚ) - 1))
  else 0

/-- `compute_ripleys_k(radii, area)`, spatial_statistics.py lines 61–108.
`self.tree is None` iff the point list is empty (line 28).  Line 80
computes `density = n / area` on every non-error path: with `area = 0`
this plain Python float division raises `ZeroDivisionError` (`crash`). -/
noncomputable def compute_ripleys_k (pts : List Point) (radii : List ℚ) (area : ℚ) :
    RipleyOutcome :=
  if pts.length = 0 then .error "No spatial data"
  else if area = 0 then .crash
  else
    .ok
      { radii := radii
        k_observed := radii.map (fun (r : ℚ) => ripleyK pts area r)
        k_expected_csr := radii.map (fun (r : ℚ) => Real.pi * (r : ℝ) ^ 2)
        l_function := radii.map
          (fun (r : ℚ) => Real.sqrt (((ripleyK pts area r : ℚ) : ℝ) / Real.pi) - (r : ℝ))
        is_clustered := radii.map
          (fun (r : ℚ) => decide (Real.pi * (r : ℝ) ^ 2 < ((ripleyK pts area r : ℚ) : ℝ))) }

end SpatialPathDB

namespace SpatialPathDB

open Classical in
/-- Spec form of K(r): `area · 2·pairCount(r) / (N·(N−1))` with the pair
count phrased over real Euclidean distances. -/
noncomputable def ripleyKSpec (pts : List Point) (area r : ℚ) : ℚ :=
  area * (2 * pairCountSpec pts r) / ((pts.length : ℚ) * ((pts.length : ℚ) - 1))

/-! ### `DensityEstimator` (density_estimation.py) -/

/-- Slide bounds `(x_min, y_min, x_max, y_max)`. -/
abbrev Bounds : Type := ℚ × ℚ × ℚ × ℚ

/-- Truncation toward zero: the semantics of numpy's `astype(int)` on a
float value. -/
def ratTrunc (q : ℚ) : ℤ := if 0 ≤ q then ⌊q⌋ else ⌈q⌉

/-- `np.min` of a rational list (meaningful for nonempty input). -/
def listMinQ (l : List ℚ) : ℚ := (l.min?).getD 0

/-- `np.max` of a rational list (meaningful for nonempty input). -/
def listMaxQ (l : List ℚ) : ℚ := (l.max?).getD 0

/-- The state built by `DensityEstimator.__init__` (lines 16–35). -/
structure DensityEstimator where
  centroids : List Point
  bounds : Bounds

/-- `DensityEstimator.__init__`: with no explicit bounds and a nonempty
point set, bounds are the coordinate extrema padded by 100; otherwise the
explicit bounds, or the fixed fallback `(0, 0, 100000, 80000)` when none
were given (line 35: `bounds or (0, 0, 100000, 80000)`). -/
def DensityEstimator.init (centroids : List Point) (bounds? : Option Bounds) :
    DensityEstimator :=
  if bounds?.isNone ∧ centroids ≠ [] then
    { centroids := centroids
      bounds := (listMinQ (centroids.map Prod.fst) - 100,
                 listMinQ (centroids.map Prod.snd) - 100,
                 listMaxQ (centroids.map Prod.fst) + 100,
                 listMaxQ (centroids.map Prod.snd) + 100) }
  else
    { centroids := centroids, bounds := bounds?.getD (0, 0, 100000, 80000) }

/-- One bin index of `compute_grid_density` (lines 60–65): truncate the
scaled offset to an integer, then clip into `[0, n − 1]`. -/
def binIdx (lo s : ℚ) (n : ℤ) (x : ℚ) : ℤ :=
  max 0 (min (ratTrunc ((x - lo) / s)) (n - 1))

/-- The count grid (rows are y-bins, columns are x-bins): cell `(iy, ix)`
counts the points `i` (with `keep i`, used for per-label masks) whose
clipped bin indices are `(ix, iy)`. -/
def countGridOf (pts : List Point) (xmin ymin s : ℚ) (nx ny : ℕ) (keep : ℕ → Bool) :
    List (List ℕ) :=
  (List.range ny).map fun (iy : ℕ) =>
    (List.range nx).map fun (ix : ℕ) =>
      ((Finset.range pts.length).filter fun i =>
        keep i ∧
        binIdx xmin s (nx : ℤ) (pts.getD i (0, 0)).1 = (ix : ℤ) ∧
        binIdx ymin s (ny : ℤ) (pts.getD i (0, 0)).2 = (iy : ℤ)).card

/-- The dict returned by `compute_grid_density`; keys absent on the
empty-input early return (lines 52–57) are `Option` fields. -/
structure GridResult where
  grid : List (List ℕ)
  grid_size : ℚ
  bounds : Bounds
  shape : Option (ℕ × ℕ)
  max_count : Option ℕ
  total_count : Option ℕ
  by_label : Option (List (ℕ × List (List ℕ)))
  deriving DecidableEq

/-- Outcome of `compute_grid_density`; `crash` is an uncaught numpy
exception (`OverflowError` from `int(inf)` when the cell size is 0,
`ValueError` from `np.zeros` with a negative dimension, `IndexError` from
`np.add.at` with a clipped index of −1 on a zero-sized axis, or a
boolean-mask length mismatch). -/
inductive GridOutcome where
  | crash
  | ok (g : GridResult)
  deriving DecidableEq

/-- `compute_grid_density(grid_size, labels)` (lines 37–91). -/
def compute_grid_density (est : DensityEstimator) (grid_size : ℚ)
    (labels? : Option (List ℕ)) : GridOutcome :=
  let xmin := est.bounds.1
  let ymin := est.bounds.2.1
  let xmax := est.bounds.2.2.1
  let ymax := est.bounds.2.2.2
  if grid_size = 0 then .crash
  else
    let nxZ : ℤ := ⌈(xmax - xmin) / grid_size⌉
    let nyZ : ℤ := ⌈(ymax - ymin) / grid_size⌉
    if nxZ < 0 ∨ nyZ < 0 then .crash
    else if est.centroids = [] then
      .ok { grid := List.replicate nyZ.toNat (List.replicate nxZ.toNat 0)
            grid_size := grid_size
            bounds := est.bounds
            shape := none, max_count := none, total_count := none, by_label := none }
    else if nxZ = 0 ∨ nyZ = 0 then .crash
    else
      let nx := nxZ.toNat
      let ny := nyZ.toNat
      let mainGrid := countGridOf est.centroids xmin ymin grid_size nx ny (fun _ => true)
      let base : GridResult :=
        { grid := mainGrid
          grid_size := grid_size
          bounds := est.bounds
          shape := some (ny, nx)
          max_count := some ((mainGrid.flatten.max?).getD 0)
          total_count := some mainGrid.flatten.sum
          by_label := none }
      match labels? with
      | none => .ok base
      | some ℓ =>
        if ℓ.length ≠ est.centroids.length then .crash
        else
          .ok { base with
                by_label := some ((ℓ.toFinset.sort (· ≤ ·)).map fun lab =>
                  (lab, countGridOf est.centroids xmin ymin grid_size nx ny
                    (fun i => ℓ.getD i 0 == lab))) }

/-! ### `compute_smoothed_density` (density_estimation.py 143–166) and
`scipy.ndimage.gaussian_filter` -/

/-- A real-valued grid (the float array after smoothing). -/
abbrev RGrid : Type := List (List ℝ)

/-- `astype(float)` on a count grid. -/
def castGrid (g : List (List ℕ)) : RGrid := g.map (fun row => row.map (fun c => (c : ℝ)))

/-- Index reflection of scipy's default boundary mode `reflect`
(`(d c b a | a b c d | d c b a)`), as a function of `k mod 2n`. -/
def reflectIdx (n : ℕ) (k : ℤ) : ℕ :=
  let m := k.emod (2 * n)
  if m < (n : ℤ) then m.toNat else (2 * n - 1 - m.toNat)

/-- The normalized 1-D Gaussian kernel of `scipy.ndimage._gaussian_kernel1d`
for radius `lw = int(truncate * sigma + 0.5)` with `truncate = 4.0`:
weights `exp(−(j − lw)² / (2σ²))`, divided by their sum. -/
noncomputable def gaussWeights (sigma : ℚ) : List ℝ :=
  let lw : ℕ := (⌊4 * sigma + 1 / 2⌋).toNat
  let raw : List ℝ := (List.range (2 * lw + 1)).map
    (fun j => Real.exp (-(((j : ℝ) - (lw : ℝ)) ^ 2) / (2 * (sigma : ℝ) ^ 2)))
  raw.map (fun w => w / raw.sum)

/-- `scipy.ndimage.correlate1d` with a centred kernel of radius `lw` and
`reflect` boundary handling. -/
noncomputable def correlate1dR (w : List ℝ) (lw : ℕ) (row : List ℝ) : List ℝ :=
  (List.range row.length).map fun i =>
    ((List.range w.length).map fun j =>
      w.getD j 0 * row.getD (reflectIdx row.length ((i : ℤ) + (j : ℤ) - (lw : ℤ))) 0).sum

/-- `scipy.ndimage.gaussian_filter1d` along one axis. -/
noncomputable def gaussianFilter1dR (sigma : ℚ) (row : List ℝ) : List ℝ :=
  correlate1dR (gaussWeights sigma) (⌊4 * sigma + 1 / 2⌋).toNat row

/-- `scipy.ndimage.gaussian_filter` on a 2-D array: axes whose sigma is
≤ 1e-15 are skipped (`if sigmas[ii] > 1e-15` in scipy's source), and when
no axis remains the input is copied unchanged — so `sigma = 0` is the
identity.  Otherwise the separable Gaussian is applied along axis 0
(columns) and then axis 1 (rows).  The float literal `1e-15` is modelled
as the rational `1/10^15`. -/
noncomputable def scipy_gaussian_filter (sigma : ℚ) (g : RGrid) : RGrid :=
  if sigma ≤ 1 / 10 ^ 15 then g
  else
    let cols := ((g.transpose).map (gaussianFilter1dR sigma)).transpose
    cols.map (gaussianFilter1dR sigma)

/-- `np.max` of a real list (meaningful for nonempty input). -/
noncomputable def listMaxR (l : List ℝ) : ℝ := l.foldr max (l.headD 0)

/-- The dict returned by `compute_smoothed_density`: the grid-density dict
plus the smoothed grid and sigma. -/
structure SmoothResult where
  base : GridResult
  smoothed_grid : RGrid
  sigma : ℚ

/-- Outcome of `compute_smoothed_density`; `crash` covers both a crash in
the underlying `compute_grid_density` call and `smoothed.max()` on an
empty array (`ValueError`). -/
inductive SmoothOutcome where
  | crash
  | ok (r : SmoothResult)

/-- `smoothed_grid` of a success outcome (`[]` on a crash). -/
def SmoothOutcome.smoothedGrid : SmoothOutcome → RGrid
  | .crash => []
  | .ok r => r.smoothed_grid

/-- The unsmoothed count grid of a success outcome (`[]` on a crash). -/
def SmoothOutcome.countGrid : SmoothOutcome → List (List ℕ)
  | .crash => []
  | .ok r => r.base.grid

/-- `compute_smoothed_density(grid_size, sigma)` (lines 143–166): grid
density, Gaussian blur, then rescale so the maximum is 1 unless the
maximum is not positive. -/
noncomputable def compute_smoothed_density (est : DensityEstimator) (grid_size sigma : ℚ) :
    SmoothOutcome :=
  match compute_grid_density est grid_size none with
  | .crash => .crash
  | .ok g =>
    let sm := scipy_gaussian_filter sigma (castGrid g.grid)
    if sm.flatten = [] then .crash
    else
      let M := listMaxR sm.flatten
      let sm' := if 0 < M then sm.map (fun row => row.map (fun v => v / M)) else sm
      .ok { base := g, smoothed_grid := sm', sigma := sigma }

/-! ### `compute_label_colocalization` (spatial_statistics.py 110–157) -/

/-- The neighbour relation driving colocalization: `query_ball_tree`
returns, for point `i`, every index at distance ≤ r (self included); the
loop then skips `i == j`. -/
def nbrB (pts : List Point) (r : ℚ) (i j : ℕ) : Bool :=
  decide (i ≠ j) && withinR (pts.getD i (0, 0)) (pts.getD j (0, 0)) r

/-- `cooccurrence[a][b]`: ordered pairs `(i, j)` of distinct indices at
distance ≤ r with labels `a` and `b`. -/
def cooccur (pts : List Point) (ℓ : List ℕ) (r : ℚ) (a b : ℕ) : ℕ :=
  ((Finset.range pts.length ×ˢ Finset.range pts.length).filter
    (fun ij => ℓ.getD ij.1 0 = a ∧ ℓ.getD ij.2 0 = b ∧ nbrB pts r ij.1 ij.2)).card

/-- `total_neighbors` for label `a`: all radius-neighbours over all points
of label `a`. -/
def totalNbrs (pts : List Point) (ℓ : List ℕ) (r : ℚ) (a : ℕ) : ℕ :=
  ((Finset.range pts.length ×ˢ Finset.range pts.length).filter
    (fun ij => ℓ.getD ij.1 0 = a ∧ nbrB pts r ij.1 ij.2)).card

/-- One entry of the colocalization matrix (source lines 140–151):
`cooccurrence[a][b] / total_neighbors` when the total is positive, else 0. -/
def colocScore (pts : List Point) (ℓ : List ℕ) (r : ℚ) (a b : ℕ) : ℚ :=
  if 0 < totalNbrs pts ℓ r a then (cooccur pts ℓ r a b : ℚ) / (totalNbrs pts ℓ r a : ℚ)
  else 0

/-- `label_counts[a]`: how many points carry label `a`. -/
def labelCountOf (pts : List Point) (ℓ : List ℕ) (a : ℕ) : ℕ :=
  ((Finset.range pts.length).filter (fun i => ℓ.getD i 0 = a)).card

/-- The dict returned on the success path of `compute_label_colocalization`.
The matrix and counts are kept as functions, indexed by the labels in
`labelsUnique` (`np.unique(labels)`). -/
structure ColocResult where
  radius : ℚ
  labelsUnique : Finset ℕ
  matrix : ℕ → ℕ → ℚ
  label_counts : ℕ → ℕ

/-- Outcome of `compute_label_colocalization`: the `MissingLabels` error
dict, an uncaught exception (`crash`), or the success dict. -/
inductive ColocOutcome where
  | missingLabels
  | crash
  | ok (res : ColocResult)

/-- `compute_label_colocalization(radius)` (lines 110–157).  With no
labels it returns the error dict; with labels but an empty point set,
`self.tree` is `None` and `None.query_ball_tree` raises
(`AttributeError`); a label array shorter than the point set raises
`IndexError` inside the loop. -/
def compute_label_colocalization (pts : List Point) (labels? : Option (List ℕ))
    (radius : ℚ) : ColocOutcome :=
  match labels? with
  | none => .missingLabels
  | some ℓ =>
    if pts.length = 0 then .crash
    else if ℓ.length < pts.length then .crash
    else
      .ok { radius := radius
            labelsUnique := ℓ.toFinset
            matrix := colocScore pts ℓ radius
            label_counts := labelCountOf pts ℓ }

open Classical in
/-- Spec-side wording: label `a` has at least one radius-neighbour across
the whole point set (some point of label `a` has another point within
real Euclidean distance `r`). -/
def hasNeighborSpec (pts : List Point) (ℓ : List ℕ) (r : ℚ) (a : ℕ) : Prop :=
  ∃ i < pts.length, ℓ.getD i 0 = a ∧
    ∃ j < pts.length, i ≠ j ∧ distR (pts.getD i (0, 0)) (pts.getD j (0, 0)) ≤ (r : ℝ)

/-! ### `compute_hotspot_detection` (spatial_statistics.py 159–218) -/

/-- One entry of the hotspot list. -/
structure Hotspot where
  grid_x : ℕ
  grid_y : ℕ
  center_x : ℚ
  center_y : ℚ
  count : ℕ
  density : ℚ
  deriving DecidableEq

/-- The dict returned by `compute_hotspot_detection`; the early return for
an empty point set (lines 168–169) carries only the `hotspots` key, so the
other keys are `Option` fields. -/
structure HotspotResult where
  hotspots : List Hotspot
  grid_size : Option ℚ
  total_cells : Option ℕ
  n_hotspots : Option ℕ
  max_density : Option ℚ
  mean_density : Option ℚ
  deriving DecidableEq

/-- Outcome of `compute_hotspot_detection`; `crash` is the uncaught numpy
exception when the point set's bounding box is degenerate (a zero-sized
grid axis: `np.zeros` with dimension 0 plus a clipped index of −1 makes
`np.add.at` raise `IndexError`; a negative dimension makes `np.zeros`
raise `ValueError`). -/
inductive HotspotOutcome where
  | crash
  | ok (r : HotspotResult)
  deriving DecidableEq

/-- `compute_hotspot_detection(cell_size, min_density)` (lines 159–218):
grid over the point set's own bounding box, density per cell rescaled to
10,000 square units, cells with density ≥ the threshold, sorted by
descending density (stable, as Python's `list.sort`). -/
def compute_hotspot_detection (pts : List Point) (cell_size min_density : ℚ) :
    HotspotOutcome :=
  if pts.length = 0 then
    .ok { hotspots := [], grid_size := none, total_cells := none, n_hotspots := none,
          max_density := none, mean_density := none }
  else
    let xmin := listMinQ (pts.map Prod.fst)
    let ymin := listMinQ (pts.map Prod.snd)
    let xmax := listMaxQ (pts.map Prod.fst)
    let ymax := listMaxQ (pts.map Prod.snd)
    let nxZ : ℤ := ⌈(xmax - xmin) / cell_size⌉
    let nyZ : ℤ := ⌈(ymax - ymin) / cell_size⌉
    if nxZ ≤ 0 ∨ nyZ ≤ 0 then .crash
    else
      let count : ℕ → ℕ → ℕ := fun ix iy =>
        ((Finset.range pts.length).filter fun i =>
          binIdx xmin cell_size nxZ (pts.getD i (0, 0)).1 = (ix : ℤ) ∧
          binIdx ymin cell_size nyZ (pts.getD i (0, 0)).2 = (iy : ℤ)).card
      let dens : ℕ → ℕ → ℚ := fun ix iy => (count ix iy : ℚ) / cell_size ^ 2 * 10000
      let cells : List (ℕ × ℕ) :=
        (List.range nxZ.toNat).flatMap fun ix => (List.range nyZ.toNat).map fun iy => (ix, iy)
      let hs : List Hotspot :=
        ((cells.filter fun c => decide (min_density ≤ dens c.1 c.2)).map fun c =>
          { grid_x := c.1, grid_y := c.2
            center_x := xmin + ((c.1 : ℚ) + 1 / 2) * cell_size
            center_y := ymin + ((c.2 : ℚ) + 1 / 2) * cell_size
            count := count c.1 c.2, density := dens c.1 c.2 }).mergeSort
          (fun a b => decide (b.density ≤ a.density))
      let nonzero := cells.filter fun c => decide (count c.1 c.2 ≠ 0)
      .ok { hotspots := hs
            grid_size := some cell_size
            total_cells := some pts.length
            n_hotspots := some hs.length
            max_density := some (listMaxQ (cells.map fun c => dens c.1 c.2))
            mean_density := some ((nonzero.map fun c => dens c.1 c.2).sum / (nonzero.length : ℚ)) }

/-! ### `compute_nearest_neighbor_distribution` (spatial_statistics.py 30–59) -/

/-- The squared distances from point `i` to every tree point (self
included, at 0): the distance multiset seen by `tree.query(..., k=2)`. -/
def nnDistsSq (pts : List Point) (i : ℕ) : List ℚ :=
  (List.range pts.length).map fun j => sqDist (pts.getD i (0, 0)) (pts.getD j (0, 0))

/-- `distances[:, 1]` of `tree.query(self.centroids, k=2)`, squared: the
second-smallest distance from point `i` (self included), i.e. the minimum
after removing one copy of the minimum. -/
def codeNNSq (pts : List Point) (i : ℕ) : ℚ :=
  listMinQ ((nnDistsSq pts i).erase (listMinQ (nnDistsSq pts i)))

/-- The per-point list `nn_distances` (squared). -/
def nnSqList (pts : List Point) : List ℚ := (List.range pts.length).map (codeNNSq pts)

/-- Ascending sort of a real list. -/
noncomputable def sortR (l : List ℝ) : List ℝ := l.mergeSort fun a b => decide (a ≤ b)

/-- `np.mean`. -/
noncomputable def meanR (l : List ℝ) : ℝ := l.sum / l.length

/-- `np.std` (population standard deviation). -/
noncomputable def stdR (l : List ℝ) : ℝ :=
  Real.sqrt ((l.map fun x => (x - meanR l) ^ 2).sum / l.length)

/-- `np.min` of a real list (meaningful for nonempty input). -/
noncomputable def minR (l : List ℝ) : ℝ := l.foldr min (l.headD 0)

/-- `np.percentile` with the default linear interpolation:
`h = p/100 · (n − 1)`, interpolate between the sorted values at `⌊h⌋` and
`⌈h⌉`.  `np.median` is the 50th percentile. -/
noncomputable def percentileR (l : List ℝ) (p : ℚ) : ℝ :=
  let s := sortR l
  let h : ℚ := p / 100 * ((l.length : ℚ) - 1)
  s.getD (⌊h⌋).toNat 0 + (s.getD (⌈h⌉).toNat 0 - s.getD (⌊h⌋).toNat 0) * ((h - (⌊h⌋ : ℚ)) : ℝ)

/-- `np.histogram` bin edges: 51 evenly spaced values over `[min, max]`,
widened by 0.5 on each side when the range is zero. -/
noncomputable def histEdges (l : List ℝ) : List ℝ :=
  let mn := minR l
  let mx := listMaxR l
  let a := if mn = mx then mn - 1 / 2 else mn
  let b := if mn = mx then mx + 1 / 2 else mx
  (List.range 51).map fun k => a + (b - a) * (k : ℝ) / 50

/-- `np.histogram` counts over 50 bins: half-open bins, the last bin
closed. -/
noncomputable def histCounts (l : List ℝ) : List ℕ :=
  let e := histEdges l
  (List.range 50).map fun k =>
    if k = 49 then l.countP fun x => decide (e.getD 49 0 ≤ x) && decide (x ≤ e.getD 50 0)
    else l.countP fun x => decide (e.getD k 0 ≤ x) && decide (x < e.getD (k + 1) 0)

/-- Bin centers: midpoints of consecutive edges (source line 44). -/
noncomputable def binCentersR (l : List ℝ) : List ℝ :=
  let e := histEdges l
  (List.range 50).map fun k => (e.getD k 0 + e.getD (k + 1) 0) / 2

/-- The dict returned on the success path of
`compute_nearest_neighbor_distribution`. -/
structure NNStats where
  mean : ℝ
  median : ℝ
  std : ℝ
  min : ℝ
  max : ℝ
  percentile_25 : ℝ
  percentile_75 : ℝ
  percentile_95 : ℝ
  histogram_counts : List ℕ
  histogram_bin_centers : List ℝ

/-- All the summary statistics of a distance list, as built at source
lines 46–58. -/
noncomputable def nnStatsOf (l : List ℝ) : NNStats :=
  { mean := meanR l, median := percentileR l 50, std := stdR l
    min := minR l, max := listMaxR l
    percentile_25 := percentileR l 25, percentile_75 := percentileR l 75
    percentile_95 := percentileR l 95
    histogram_counts := histCounts l, histogram_bin_centers := binCentersR l }

/-- Outcome of `compute_nearest_neighbor_distribution`. -/
inductive NNOutcome where
  | error (msg : String)
  | ok (s : NNStats)

/-- `compute_nearest_neighbor_distribution()` (lines 30–59). -/
noncomputable def compute_nearest_neighbor_distribution (pts : List Point) : NNOutcome :=
  if pts.length < 2 then .error "Insufficient data points"
  else .ok (nnStatsOf ((nnSqList pts).map fun (q : ℚ) => Real.sqrt ((q : ℚ) : ℝ)))

/-- Spec-side wording: the squared distance from point `i` to its nearest
*other* point (self excluded). -/
def specNNSq (pts : List Point) (i : ℕ) : ℚ :=
  listMinQ (((List.range pts.length).filter (· != i)).map
    (fun j => sqDist (pts.getD i (0, 0)) (pts.getD j (0, 0))))

/-- Spec-side wording: the distance from point `i` to its nearest other
point. -/
noncomputable def specNNDistR (pts : List Point) (i : ℕ) : ℝ :=
  Real.sqrt ((specNNSq pts i : ℚ) : ℝ)

/-! ### The subsampling stage of `compute_kde` (density_estimation.py
93–141) and numpy's global generator -/

/-- Swap two positions of a list (the basic step of numpy's shuffle);
indices out of range leave the list unchanged. -/
def listSwap {α : Type} (l : List α) (i j : ℕ) : List α :=
  if h : i < l.length ∧ j < l.length then
    (l.set i (l.get ⟨j, h.2⟩)).set j (l.get ⟨i, h.1⟩)
  else l

/-- numpy's legacy Fisher–Yates shuffle (`RandomState.shuffle`): for `i`
from `n − 1` down to 1, swap position `i` with the drawn position
`draws i % (i + 1)`.  The process-global generator is modelled as the raw
draw stream `draws`; the essential point for the reproducibility claim is
that the result is a function of this ambient stream, which `compute_kde`
neither seeds nor receives as an argument. -/
def npShuffleAux (draws : ℕ → ℕ) : ℕ → List ℕ → List ℕ
  | 0, a => a
  | i + 1, a => npShuffleAux draws i (listSwap a (i + 1) (draws (i + 1) % (i + 2)))

/-- `np.random.permutation(n)`. -/
def npPermutation (draws : ℕ → ℕ) (n : ℕ) : List ℕ :=
  npShuffleAux draws (n - 1) (List.range n)

/-- `np.random.choice(n, k, replace=False)`: the first `k` entries of a
fresh permutation of `range n`, as in numpy's `RandomState.choice`. -/
def npChoiceNoReplace (draws : ℕ → ℕ) (n k : ℕ) : List ℕ :=
  (npPermutation draws n).take k

/-- The subsampling stage of `compute_kde` (lines 117–124): above the
50,000-point cap the fitted sample is drawn by `np.random.choice` from the
process-global generator (the function has no seed parameter); at or
below the cap the whole point set is fitted. -/
def kdeSample (pts : List Point) (draws : ℕ → ℕ) : List Point :=
  if 50000 < pts.length then
    (npChoiceNoReplace draws pts.length 50000).map fun i => pts.getD i (0, 0)
  else pts

/-- A concrete input exceeding the subsampling cap: 50,001 distinct
points `(i, 0)`. -/
def kdeDemoPts : List Point := (List.range 50001).map fun (i : ℕ) => ((i : ℚ), (0 : ℚ))

/-! ### Theorems: distance bridge, C2 and C5 -/

/-- The executable radius test agrees with the real Euclidean distance. -/
theorem withinR_iff (p q : Point) (r : ℚ) :
    withinR p q r = true ↔ distR p q ≤ (r : ℝ) := by
  rw [withinR, distR, Real.sqrt_le_iff]
  simp only [Bool.and_eq_true, decide_eq_true_eq]
  constructor
  · rintro ⟨h0, hd⟩
    refine ⟨by exact_mod_cast h0, ?_⟩
    have : ((sqDist p q : ℚ) : ℝ) ≤ ((r ^ 2 : ℚ) : ℝ) := by exact_mod_cast hd
    simpa using this
  · rintro ⟨h0, hd⟩
    refine ⟨by exact_mod_cast h0, ?_⟩
    have : ((sqDist p q : ℚ) : ℝ) ≤ (((r : ℚ) : ℝ)) ^ 2 := hd
    exact_mod_cast this

/-- The executable pair count is the spec's pair count. -/
theorem pairCount_eq_spec (pts : List Point) (r : ℚ) :
    pairCountSpec pts r = pairCount pts r := by
  unfold pairCountSpec pairCount
  congr 1
  apply Finset.filter_congr
  intro ij _
  constructor
  · rintro ⟨h1, h2⟩; exact ⟨h1, (withinR_iff _ _ _).mpr h2⟩
  · rintro ⟨h1, h2⟩; exact ⟨h1, (withinR_iff _ _ _).mp h2⟩

/-- C2 counterexample: on a one-point set, `compute_ripleys_k` does *not*
return an error result — it returns numeric K values (here `K(1) = 0`),
contradicting the claim that N = 1 yields `InsufficientData`. -/
theorem ripleys_k_one_point_counterexample :
    (compute_ripleys_k [((0 : ℚ), (0 : ℚ))] [(1 : ℚ)] 1).isError = false ∧
    (compute_ripleys_k [((0 : ℚ), (0 : ℚ))] [(1 : ℚ)] 1).kObserved = [0] := by
  exact ⟨rfl, rfl⟩

/-- C2 (amended): for N = 0 `compute_ripleys_k` returns the error dict
(`'No spatial data'`); for N = 1 and a nonzero area it returns a numeric
result with K(r) = 0, L(r) = −r and no radius flagged as clustered, rather
than an `InsufficientData` error; for N = 1 and area = 0 the unguarded
`density = n / area` at line 80 raises `ZeroDivisionError`. -/
theorem ripleys_k_small_n (radii : List ℚ) (area : ℚ) (p : Point) :
    compute_ripleys_k [] radii area = .error "No spatial data" ∧
    (area ≠ 0 → compute_ripleys_k [p] radii area = .ok
      { radii := radii
        k_observed := radii.map (fun _ => 0)
        k_expected_csr := radii.map (fun (r : ℚ) => Real.pi * (r : ℝ) ^ 2)
        l_function := radii.map (fun (r : ℚ) => -(r : ℝ))
        is_clustered := radii.map (fun _ => false) }) ∧
    (area = 0 → compute_ripleys_k [p] radii area = .crash) := by
  have hK : ∀ r : ℚ, ripleyK [p] area r = 0 := by intro r; simp [ripleyK]
  have hk1 : (fun (r : ℚ) => ripleyK [p] area r) = fun _ => (0 : ℚ) := funext hK
  have hk2 : (fun (r : ℚ) => Real.sqrt (((ripleyK [p] area r : ℚ) : ℝ) / Real.pi) - (r : ℝ))
      = fun (r : ℚ) => -(r : ℝ) := by
    funext r; rw [hK r]; simp
  have hk3 : (fun (r : ℚ) => decide (Real.pi * (r : ℝ) ^ 2 < ((ripleyK [p] area r : ℚ) : ℝ)))
      = fun _ => false := by
    funext r
    rw [hK r]
    simp only [Rat.cast_zero, decide_eq_false_iff_not, not_lt]
    positivity
  refine ⟨rfl, fun harea => ?_, fun harea => ?_⟩
  · unfold compute_ripleys_k
    rw [if_neg (by simp), if_neg harea, hk1, hk2, hk3]
  · unfold compute_ripleys_k
    rw [if_neg (by simp), if_pos harea]

/-- Witness for `ripleys_k_small_n`: both area side conditions discharged
at concrete inputs — a one-point set with area 1 yields the numeric zero
result, with area 0 the division crash. -/
theorem ripleys_k_small_n_witness :
    compute_ripleys_k [((0 : ℚ), (0 : ℚ))] [(1 : ℚ)] 1 = .ok
      { radii := [1]
        k_observed := [(1 : ℚ)].map (fun _ => 0)
        k_expected_csr := [(1 : ℚ)].map (fun (r : ℚ) => Real.pi * (r : ℝ) ^ 2)
        l_function := [(1 : ℚ)].map (fun (r : ℚ) => -(r : ℝ))
        is_clustered := [(1 : ℚ)].map (fun _ => false) } ∧
    compute_ripleys_k [((0 : ℚ), (0 : ℚ))] [(1 : ℚ)] 0 = .crash :=
  ⟨(ripleys_k_small_n [1] 1 ((0 : ℚ), (0 : ℚ))).2.1 (by norm_num),
   (ripleys_k_small_n [1] 0 ((0 : ℚ), (0 : ℚ))).2.2 rfl⟩

/-- C5: for N ≥ 2, a strictly increasing radius list and positive area,
`compute_ripleys_k` succeeds and returns, at each radius r,
K(r) = area·2·pairCount(r)/(N·(N−1)) with pairCount the number of
unordered index pairs at Euclidean distance ≤ r, L(r) = √(K(r)/π) − r,
the CSR reference π·r², and a clustered flag that is true exactly when
K(r) > π·r². -/
theorem ripleys_k_formulas (pts : List Point) (radii : List ℚ) (area : ℚ)
    (hn : 2 ≤ pts.length) (_hmono : radii.Chain' (· < ·)) (harea : 0 < area) :
    ∃ res, compute_ripleys_k pts radii area = RipleyOutcome.ok res ∧
      res.radii = radii ∧
      res.k_observed = radii.map (fun (r : ℚ) => ripleyKSpec pts area r) ∧
      res.k_expected_csr = radii.map (fun (r : ℚ) => Real.pi * (r : ℝ) ^ 2) ∧
      res.l_function = radii.map
        (fun (r : ℚ) => Real.sqrt (((ripleyKSpec pts area r : ℚ) : ℝ) / Real.pi) - (r : ℝ)) ∧
      ∀ i, i < radii.length →
        (res.is_clustered.getD i false = true ↔
          Real.pi * ((radii.getD i 0 : ℚ) : ℝ) ^ 2 < ((res.k_observed.getD i 0 : ℚ) : ℝ)) := by
  have hlen : pts.length ≠ 0 := by omega
  have h1 : 1 < pts.length := by omega
  have hKeq : ∀ r : ℚ, ripleyK pts area r = ripleyKSpec pts area r := by
    intro r
    rw [ripleyK, ripleyKSpec, pairCount_eq_spec, if_pos h1]
  unfold compute_ripleys_k
  rw [if_neg hlen, if_neg harea.ne']
  refine ⟨_, rfl, rfl, ?_, rfl, ?_, ?_⟩
  · simp only [hKeq]
  · simp only [hKeq]
  · intro i hi
    simp only [List.getD_eq_getElem?_getD, List.getElem?_map, List.getElem?_eq_getElem hi,
      Option.map_some', Option.getD_some, decide_eq_true_eq, hKeq]

/-- C8 counterexample: with an empty point set and no explicit bounds the
active bounds are the hard-coded region `(0, 0, 100000, 80000)`; the
constructor has no default-region argument, so they cannot equal a region
chosen by the caller — e.g. they are not `(0, 0, 1, 1)`. -/
theorem density_estimator_default_counterexample :
    (DensityEstimator.init [] none).bounds = ((0 : ℚ), (0 : ℚ), (100000 : ℚ), (80000 : ℚ)) ∧
    (DensityEstimator.init [] none).bounds ≠ ((0 : ℚ), (0 : ℚ), (1 : ℚ), (1 : ℚ)) :=
  ⟨rfl, by decide⟩

/-- C8 (amended): a nonempty point set with no explicit bounds gets the
coordinate extrema padded by 100; an empty point set with no explicit
bounds gets the fixed built-in region `(0, 0, 100000, 80000)`; explicitly
supplied bounds are used unchanged. -/
theorem density_estimator_bounds (pts : List Point) (b : Bounds) :
    (pts ≠ [] →
      (DensityEstimator.init pts none).bounds =
        (listMinQ (pts.map Prod.fst) - 100, listMinQ (pts.map Prod.snd) - 100,
         listMaxQ (pts.map Prod.fst) + 100, listMaxQ (pts.map Prod.snd) + 100)) ∧
    (DensityEstimator.init [] none).bounds = (0, 0, 100000, 80000) ∧
    (DensityEstimator.init pts (some b)).bounds = b := by
  refine ⟨fun hne => ?_, rfl, ?_⟩
  · rw [DensityEstimator.init, if_pos ⟨rfl, hne⟩]
  · rw [DensityEstimator.init, if_neg (by simp)]
    rfl

/-- Witness for `density_estimator_bounds`: the padded-extrema case on a
concrete one-point set. -/
theorem density_estimator_bounds_witness :
    (DensityEstimator.init [((7 : ℚ), (3 : ℚ))] none).bounds =
      ((-93 : ℚ), (-97 : ℚ), (107 : ℚ), (103 : ℚ)) := by
  have h := (density_estimator_bounds [((7 : ℚ), (3 : ℚ))] (0, 0, 1, 1)).1 (by decide)
  rw [h]
  norm_num [listMinQ, listMaxQ, List.min?, List.max?, Prod.ext_iff]

/-- `DensityEstimator.init` with explicit bounds stores them unchanged. -/
theorem DensityEstimator.init_some (pts : List Point) (b : Bounds) :
    DensityEstimator.init pts (some b) = ⟨pts, b⟩ := rfl

/-- Every bin index is clamped into `[0, n − 1]`. -/
theorem binIdx_clamped (lo s x : ℚ) (n : ℤ) (hn : 0 < n) :
    0 ≤ binIdx lo s n x ∧ binIdx lo s n x ≤ n - 1 :=
  ⟨le_max_left _ _, max_le (by omega) (min_le_right _ _)⟩

/-- A coordinate exactly on the upper bound is clipped into the last cell. -/
theorem binIdx_upper_edge (lo hi s : ℚ) (hlt : lo < hi) (hs : 0 < s) :
    binIdx lo s ⌈(hi - lo) / s⌉ hi = ⌈(hi - lo) / s⌉ - 1 := by
  have hq : 0 < (hi - lo) / s := div_pos (by linarith) hs
  have h1 : ratTrunc ((hi - lo) / s) = ⌊(hi - lo) / s⌋ := if_pos hq.le
  have h2 : ⌈(hi - lo) / s⌉ - 1 ≤ ⌊(hi - lo) / s⌋ := by
    have := Int.ceil_le_floor_add_one ((hi - lo) / s)
    omega
  have h3 : (0 : ℤ) < ⌈(hi - lo) / s⌉ := Int.ceil_pos.mpr hq
  rw [binIdx, h1, min_eq_right h2, max_eq_right (by omega)]

unseal Rat.sub Rat.add Rat.mul Rat.inv in
theorem grid_density_concrete_eval :
    compute_grid_density (DensityEstimator.init [((5 : ℚ), (5 : ℚ))] (some (0, 0, 10, 10))) 10 none
      = .ok { grid := [[1]], grid_size := 10, bounds := (0, 0, 10, 10),
              shape := some (1, 1), max_count := some 1, total_count := some 1,
              by_label := none } := by
  decide

/-- Reading one cell of `countGridOf`. -/
theorem countGridOf_cell (pts : List Point) (xmin ymin s : ℚ) (nx ny : ℕ)
    (keep : ℕ → Bool) (iy ix : ℕ) (hiy : iy < ny) (hix : ix < nx) :
    ((countGridOf pts xmin ymin s nx ny keep).getD iy []).getD ix 0 =
      ((Finset.range pts.length).filter fun i =>
        keep i ∧ binIdx xmin s (nx : ℤ) (pts.getD i (0, 0)).1 = (ix : ℤ) ∧
        binIdx ymin s (ny : ℤ) (pts.getD i (0, 0)).2 = (iy : ℤ)).card := by
  simp only [countGridOf, List.getD_eq_getElem?_getD, List.getElem?_map,
    List.getElem?_range hiy, List.getElem?_range hix, Option.map_some', Option.getD_some]

/-- C7: with explicit bounds `(x_min, y_min, x_max, y_max)` (nondegenerate)
and positive cell size `s`, the density grid has `⌈(y_max − y_min)/s⌉`
rows (y-bins) of `⌈(x_max − x_min)/s⌉` columns (x-bins) each; every cell
counts the points whose clamped bin indices select it; bin indices are
always clamped into `[0, n − 1]` and a coordinate exactly on the upper
bound lands in the last cell; an empty point set yields the all-zero grid
of that shape; and the single point `(5, 5)` with bounds `(0, 0, 10, 10)`
and cell size 10 yields a 1×1 grid with count, max_count and total_count
all 1. -/
theorem grid_density_spec (pts : List Point) (x_min y_min x_max y_max s : ℚ)
    (hx : x_min < x_max) (hy : y_min < y_max) (hs : 0 < s) :
    ∃ g, compute_grid_density (DensityEstimator.init pts (some (x_min, y_min, x_max, y_max))) s none
        = .ok g ∧
      g.grid.length = (⌈(y_max - y_min) / s⌉).toNat ∧
      (∀ row ∈ g.grid, row.length = (⌈(x_max - x_min) / s⌉).toNat) ∧
      (∀ iy ix : ℕ, (iy : ℤ) < ⌈(y_max - y_min) / s⌉ → (ix : ℤ) < ⌈(x_max - x_min) / s⌉ →
        pts ≠ [] →
        (g.grid.getD iy []).getD ix 0 =
          ((Finset.range pts.length).filter fun i =>
            binIdx x_min s ⌈(x_max - x_min) / s⌉ (pts.getD i (0, 0)).1 = (ix : ℤ) ∧
            binIdx y_min s ⌈(y_max - y_min) / s⌉ (pts.getD i (0, 0)).2 = (iy : ℤ)).card) ∧
      (∀ (lo x : ℚ) (n : ℤ), 0 < n → 0 ≤ binIdx lo s n x ∧ binIdx lo s n x ≤ n - 1) ∧
      (∀ lo hi : ℚ, lo < hi → binIdx lo s ⌈(hi - lo) / s⌉ hi = ⌈(hi - lo) / s⌉ - 1) ∧
      (pts = [] → g.grid = List.replicate (⌈(y_max - y_min) / s⌉).toNat
          (List.replicate (⌈(x_max - x_min) / s⌉).toNat 0)) ∧
      compute_grid_density (DensityEstimator.init [((5 : ℚ), (5 : ℚ))] (some (0, 0, 10, 10))) 10 none
        = .ok { grid := [[1]], grid_size := 10, bounds := (0, 0, 10, 10),
                shape := some (1, 1), max_count := some 1, total_count := some 1,
                by_label := none } := by
  have hnx : (0 : ℤ) < ⌈(x_max - x_min) / s⌉ := Int.ceil_pos.mpr (div_pos (by linarith) hs)
  have hny : (0 : ℤ) < ⌈(y_max - y_min) / s⌉ := Int.ceil_pos.mpr (div_pos (by linarith) hs)
  rw [DensityEstimator.init_some, compute_grid_density]
  simp only
  rw [if_neg hs.ne', if_neg (by push_neg; omega)]
  by_cases hpts : pts = []
  · rw [if_pos hpts]
    refine ⟨_, rfl, List.length_replicate _ _, ?_, ?_, ?_, ?_, fun _ => rfl,
      grid_density_concrete_eval⟩
    · intro row hrow
      rw [List.eq_of_mem_replicate hrow]
      exact List.length_replicate _ _
    · intro _ _ _ _ hne
      exact absurd hpts hne
    · intro lo x n hn
      exact binIdx_clamped lo s x n hn
    · intro lo hi hlt
      exact binIdx_upper_edge lo hi s hlt hs
  · rw [if_neg hpts, if_neg (by push_neg; omega)]
    refine ⟨_, rfl, ?_, ?_, ?_, ?_, ?_, fun h => absurd h hpts, grid_density_concrete_eval⟩
    · simp [countGridOf]
    · intro row hrow
      simp only [countGridOf, List.mem_map] at hrow
      obtain ⟨iy, -, rfl⟩ := hrow
      simp
    · intro iy ix hiyZ hixZ _
      have hiy : iy < (⌈(y_max - y_min) / s⌉).toNat := by omega
      have hix : ix < (⌈(x_max - x_min) / s⌉).toNat := by omega
      rw [countGridOf_cell pts x_min y_min s _ _ _ iy ix hiy hix,
        Int.toNat_of_nonneg hnx.le, Int.toNat_of_nonneg hny.le]
      simp
    · intro lo x n hn
      exact binIdx_clamped lo s x n hn
    · intro lo hi hlt
      exact binIdx_upper_edge lo hi s hlt hs

/-- Witness for `grid_density_spec`: its hypotheses hold at the concrete
single-point input and the concrete 1×1 grid is produced. -/
theorem grid_density_spec_witness :
    compute_grid_density (DensityEstimator.init [((5 : ℚ), (5 : ℚ))] (some (0, 0, 10, 10))) 10 none
      = .ok { grid := [[1]], grid_size := 10, bounds := (0, 0, 10, 10),
              shape := some (1, 1), max_count := some 1, total_count := some 1,
              by_label := none } := by
  obtain ⟨g, -, -, -, -, -, -, -, hconc⟩ :=
    grid_density_spec [((5 : ℚ), (5 : ℚ))] 0 0 10 10 10 (by norm_num) (by norm_num) (by norm_num)
  exact hconc

/-- C10: on an empty point set `compute_grid_density` returns only the
grid, grid_size and bounds keys — shape, max_count, total_count and
by_label are absent even when labels are supplied — while every result for
a nonempty point set carries shape, max_count and total_count, and carries
by_label exactly when labels were supplied. -/
theorem grid_density_empty_fields (x_min y_min x_max y_max s : ℚ) (ℓ? : Option (List ℕ))
    (hs : 0 < s) (hx : x_min ≤ x_max) (hy : y_min ≤ y_max) :
    (compute_grid_density (DensityEstimator.init [] (some (x_min, y_min, x_max, y_max))) s ℓ? =
      .ok { grid := List.replicate (⌈(y_max - y_min) / s⌉).toNat
              (List.replicate (⌈(x_max - x_min) / s⌉).toNat 0)
            grid_size := s
            bounds := (x_min, y_min, x_max, y_max)
            shape := none, max_count := none, total_count := none, by_label := none }) ∧
    ∀ (est : DensityEstimator) (s' : ℚ) (ℓ?' : Option (List ℕ)) (g : GridResult),
      est.centroids ≠ [] → compute_grid_density est s' ℓ?' = .ok g →
      g.shape.isSome ∧ g.max_count.isSome ∧ g.total_count.isSome ∧
      g.by_label.isSome = ℓ?'.isSome := by
  constructor
  · have hnx : (0 : ℤ) ≤ ⌈(x_max - x_min) / s⌉ :=
      Int.ceil_nonneg (div_nonneg (by linarith) hs.le)
    have hny : (0 : ℤ) ≤ ⌈(y_max - y_min) / s⌉ :=
      Int.ceil_nonneg (div_nonneg (by linarith) hs.le)
    rw [DensityEstimator.init_some, compute_grid_density]
    simp only
    rw [if_neg hs.ne', if_neg (by push_neg; omega)]
    simp
  · intro est s' ℓ?' g hne heq
    rw [compute_grid_density] at heq
    simp only at heq
    split_ifs at heq
    cases ℓ?' with
    | none =>
      replace heq : GridOutcome.ok _ = GridOutcome.ok g := heq
      simp only [GridOutcome.ok.injEq] at heq
      subst heq
      simp
    | some ℓ =>
      replace heq : (if ℓ.length ≠ est.centroids.length then GridOutcome.crash
          else GridOutcome.ok _) = GridOutcome.ok g := heq
      by_cases hlen : ℓ.length = est.centroids.length
      · rw [if_neg (not_not_intro hlen)] at heq
        simp only [GridOutcome.ok.injEq] at heq
        subst heq
        simp
      · rw [if_pos hlen] at heq
        exact GridOutcome.noConfusion heq

unseal Rat.sub Rat.add Rat.mul Rat.inv in
/-- Witness for `grid_density_empty_fields`: concrete empty-input call
with a label array supplied. -/
theorem grid_density_empty_fields_witness :
    compute_grid_density (DensityEstimator.init [] (some (0, 0, 10, 10))) 10 (some [5]) =
      .ok { grid := [[0]], grid_size := 10, bounds := (0, 0, 10, 10),
            shape := none, max_count := none, total_count := none, by_label := none } := by
  have h := (grid_density_empty_fields 0 0 10 10 10 (some [5])
    (by norm_num) (by norm_num) (by norm_num)).1
  rw [h]
  decide

unseal Rat.sub Rat.add Rat.mul Rat.inv in
theorem grid_density_two_coincident_eval :
    compute_grid_density (DensityEstimator.init [((0 : ℚ), (0 : ℚ)), ((0 : ℚ), (0 : ℚ))] none)
        256 none =
      .ok { grid := [[2]], grid_size := 256, bounds := (-100, -100, 100, 100),
            shape := some (1, 1), max_count := some 2, total_count := some 2,
            by_label := none } := by
  decide

/-- With `sigma = 0` the scipy Gaussian filter skips every axis and copies
its input. -/
theorem scipy_gaussian_filter_zero (g : RGrid) : scipy_gaussian_filter 0 g = g := by
  rw [scipy_gaussian_filter, if_pos (by norm_num)]

/-- C4 counterexample: on two coincident points (one grid cell of count 2)
`compute_smoothed_density` with `sigma = 0` returns the rescaled grid
`[[1]]`, not the count grid `[[2]]` — the claimed equality with the
unsmoothed count grid fails because of the max-rescaling step. -/
theorem smoothed_density_sigma0_counterexample :
    (compute_smoothed_density
        (DensityEstimator.init [((0 : ℚ), (0 : ℚ)), ((0 : ℚ), (0 : ℚ))] none) 256 0).smoothedGrid
      ≠ castGrid (compute_smoothed_density
        (DensityEstimator.init [((0 : ℚ), (0 : ℚ)), ((0 : ℚ), (0 : ℚ))] none) 256 0).countGrid := by
  have hval : compute_smoothed_density
      (DensityEstimator.init [((0 : ℚ), (0 : ℚ)), ((0 : ℚ), (0 : ℚ))] none) 256 0 =
      .ok { base := { grid := [[2]], grid_size := 256, bounds := (-100, -100, 100, 100),
                      shape := some (1, 1), max_count := some 2, total_count := some 2,
                      by_label := none }
            smoothed_grid := [[1]]
            sigma := 0 } := by
    simp only [compute_smoothed_density, grid_density_two_coincident_eval,
      scipy_gaussian_filter_zero, castGrid, List.map_cons, List.map_nil, List.flatten,
      List.append_nil, listMaxR]
    norm_num
  rw [hval]
  simp only [SmoothOutcome.smoothedGrid, SmoothOutcome.countGrid, castGrid,
    List.map_cons, List.map_nil]
  intro h
  have h1 := List.head_eq_of_cons_eq h
  have h2 := List.head_eq_of_cons_eq h1
  norm_num at h2

/-- C4 (amended): with `sigma = 0` the Gaussian blur itself is a no-op
(scipy skips axes with sigma ≤ 1e-15), so the smoothed grid equals the
unsmoothed count grid *divided by its maximum* when that maximum is
positive, and the count grid itself otherwise; it equals the raw count
grid only when the grid's maximum count is at most 1. -/
theorem smoothed_density_sigma0 (est : DensityEstimator) (gs : ℚ) (g : GridResult)
    (hg : compute_grid_density est gs none = .ok g)
    (hne : (castGrid g.grid).flatten ≠ []) :
    compute_smoothed_density est gs 0 = .ok
      { base := g
        smoothed_grid :=
          if 0 < listMaxR (castGrid g.grid).flatten then
            (castGrid g.grid).map
              (fun row => row.map (fun v => v / listMaxR (castGrid g.grid).flatten))
          else castGrid g.grid
        sigma := 0 } := by
  simp only [compute_smoothed_density, hg, scipy_gaussian_filter_zero]
  rw [if_neg hne]

/-- Witness for `smoothed_density_sigma0` at the two-coincident-point
input: the smoothed grid is the rescaled `[[1]]`. -/
theorem smoothed_density_sigma0_witness :
    compute_smoothed_density
        (DensityEstimator.init [((0 : ℚ), (0 : ℚ)), ((0 : ℚ), (0 : ℚ))] none) 256 0 =
      .ok { base := { grid := [[2]], grid_size := 256, bounds := (-100, -100, 100, 100),
                      shape := some (1, 1), max_count := some 2, total_count := some 2,
                      by_label := none }
            smoothed_grid := [[1]]
            sigma := 0 } := by
  have h := smoothed_density_sigma0
    (DensityEstimator.init [((0 : ℚ), (0 : ℚ)), ((0 : ℚ), (0 : ℚ))] none) 256 _
    grid_density_two_coincident_eval (by simp [castGrid])
  rw [h]
  simp only [castGrid, List.map_cons, List.map_nil, List.flatten, List.append_nil, listMaxR]
  norm_num

unseal Rat.sub Rat.add Rat.mul Rat.inv in
/-- C3: the engine *can* raise across the call boundary.  Colocalization
on an empty point set with a (non-null) empty label array reaches
`None.query_ball_tree` (`AttributeError`), and hotspot detection on a
point set with a degenerate bounding box builds a zero-sized grid axis and
indexes it at −1 (`IndexError`).  Both are modelled by the `crash`
outcome. -/
theorem engine_operations_crash :
    compute_label_colocalization [] (some []) 50 = .crash ∧
    compute_hotspot_detection [((5 : ℚ), (5 : ℚ))] 100 10 = .crash := by
  refine ⟨rfl, ?_⟩
  decide

/-- A label has a positive neighbour total in the code exactly when the
spec says it has at least one radius-neighbour across the point set. -/
theorem totalNbrs_pos_iff (pts : List Point) (ℓ : List ℕ) (r : ℚ) (a : ℕ) :
    0 < totalNbrs pts ℓ r a ↔ hasNeighborSpec pts ℓ r a := by
  rw [totalNbrs, Finset.card_pos, Finset.Nonempty]
  constructor
  · rintro ⟨⟨i, j⟩, hij⟩
    simp only [Finset.mem_filter, Finset.mem_product, Finset.mem_range] at hij
    obtain ⟨⟨hi, hj⟩, ha, hn⟩ := hij
    rw [nbrB, Bool.and_eq_true, decide_eq_true_eq] at hn
    exact ⟨i, hi, ha, j, hj, hn.1, (withinR_iff _ _ _).mp hn.2⟩
  · rintro ⟨i, hi, ha, j, hj, hij, hd⟩
    refine ⟨⟨i, j⟩, ?_⟩
    simp only [Finset.mem_filter, Finset.mem_product, Finset.mem_range]
    refine ⟨⟨hi, hj⟩, ha, ?_⟩
    rw [nbrB, Bool.and_eq_true, decide_eq_true_eq]
    exact ⟨hij, (withinR_iff _ _ _).mpr hd⟩

/-- Summing a cooccurrence row over the distinct labels recovers the
label's neighbour total. -/
theorem sum_cooccur (pts : List Point) (ℓ : List ℕ) (r : ℚ) (a : ℕ)
    (hlen : pts.length ≤ ℓ.length) :
    ∑ b ∈ ℓ.toFinset, cooccur pts ℓ r a b = totalNbrs pts ℓ r a := by
  rw [totalNbrs]
  have H : ∀ ij ∈ (Finset.range pts.length ×ˢ Finset.range pts.length).filter
      (fun ij => ℓ.getD ij.1 0 = a ∧ nbrB pts r ij.1 ij.2),
      ℓ.getD ij.2 0 ∈ ℓ.toFinset := by
    intro ij hij
    simp only [Finset.mem_filter, Finset.mem_product, Finset.mem_range] at hij
    have hj : ij.2 < ℓ.length := lt_of_lt_of_le hij.1.2 hlen
    rw [List.getD_eq_getElem?_getD, List.getElem?_eq_getElem hj, Option.getD_some]
    exact List.mem_toFinset.mpr (List.getElem_mem hj)
  rw [Finset.card_eq_sum_card_fiberwise H]
  apply Finset.sum_congr rfl
  intro b _
  rw [cooccur, Finset.filter_filter]
  congr 1
  apply Finset.filter_congr
  intro ij _
  constructor
  · rintro ⟨h1, h2, h3⟩; exact ⟨⟨h1, h3⟩, h2⟩
  · rintro ⟨⟨h1, h3⟩, h2⟩; exact ⟨h1, h2, h3⟩

/-- C6: without a label array colocalization returns the `MissingLabels`
error; with a label array (and a nonempty point set of matching length)
it returns the normalized matrix, in which the row of every label having
at least one radius-neighbour across the whole point set sums to exactly
1 over the distinct labels, and the row of a label with no
radius-neighbour is identically 0. -/
theorem coloc_row_sums (pts : List Point) (ℓ : List ℕ) (r : ℚ) :
    compute_label_colocalization pts none r = .missingLabels ∧
    (pts ≠ [] → pts.length ≤ ℓ.length →
      compute_label_colocalization pts (some ℓ) r =
        .ok { radius := r, labelsUnique := ℓ.toFinset,
              matrix := colocScore pts ℓ r, label_counts := labelCountOf pts ℓ } ∧
      ∀ a ∈ ℓ.toFinset,
        (hasNeighborSpec pts ℓ r a →
          ∑ b ∈ ℓ.toFinset, colocScore pts ℓ r a b = 1) ∧
        (¬hasNeighborSpec pts ℓ r a →
          ∀ b ∈ ℓ.toFinset, colocScore pts ℓ r a b = 0)) := by
  refine ⟨rfl, fun hne hlen => ⟨?_, ?_⟩⟩
  · rw [compute_label_colocalization]
    rw [if_neg (fun h => hne (List.length_eq_zero.mp h)), if_neg (not_lt.mpr hlen)]
  · intro a _
    constructor
    · intro hnb
      have htot : 0 < totalNbrs pts ℓ r a := (totalNbrs_pos_iff pts ℓ r a).mpr hnb
      have h0 : ((totalNbrs pts ℓ r a : ℕ) : ℚ) ≠ 0 := Nat.cast_ne_zero.mpr htot.ne'
      simp only [colocScore, if_pos htot]
      rw [← Finset.sum_div]
      rw [show ∑ b ∈ ℓ.toFinset, ((cooccur pts ℓ r a b : ℕ) : ℚ)
          = ((∑ b ∈ ℓ.toFinset, cooccur pts ℓ r a b : ℕ) : ℚ) by push_cast; ring]
      rw [sum_cooccur pts ℓ r a hlen]
      exact div_self h0
    · intro hnb b _
      have htot : totalNbrs pts ℓ r a = 0 := by
        by_contra h
        exact hnb ((totalNbrs_pos_iff pts ℓ r a).mp (Nat.pos_of_ne_zero h))
      rw [colocScore, if_neg (by omega)]

/-- Witness for `coloc_row_sums`: two labelled points within radius 2 of
each other; the row of label 0 sums to 1. -/
theorem coloc_row_sums_witness :
    ∑ b ∈ ([0, 1] : List ℕ).toFinset,
      colocScore [((0 : ℚ), (0 : ℚ)), ((1 : ℚ), (0 : ℚ))] [0, 1] 2 0 b = 1 := by
  have h := ((coloc_row_sums [((0 : ℚ), (0 : ℚ)), ((1 : ℚ), (0 : ℚ))] [0, 1] 2).2
    (by decide) (by decide)).2
  refine (h 0 (by decide)).1 ?_
  refine ⟨0, by norm_num, rfl, 1, by norm_num, by norm_num, ?_⟩
  have hsq : sqDist ((0 : ℚ), (0 : ℚ)) ((1 : ℚ), (0 : ℚ)) = 1 := by norm_num [sqDist]
  show distR ((0 : ℚ), (0 : ℚ)) ((1 : ℚ), (0 : ℚ)) ≤ (((2 : ℚ) : ℝ))
  rw [distR, hsq]
  norm_num [Real.sqrt_one]

/-- `min?` of a rational list is its least element. -/
theorem minQ_eq_some_iff {l : List ℚ} {a : ℚ} :
    l.min? = some a ↔ a ∈ l ∧ ∀ b ∈ l, a ≤ b := by
  haveI : Std.Antisymm ((· ≤ ·) : ℚ → ℚ → Prop) := ⟨fun h₁ h₂ => le_antisymm h₁ h₂⟩
  exact List.min?_eq_some_iff (fun _ => le_refl _) (fun a b => min_choice a b)
    (fun _ _ _ => le_min_iff)

/-- `listMinQ` only depends on the multiset of elements. -/
theorem listMinQ_perm {l₁ l₂ : List ℚ} (h : l₁.Perm l₂) : listMinQ l₁ = listMinQ l₂ := by
  cases hl : l₁.min? with
  | none =>
    rw [List.min?_eq_none_iff] at hl
    subst hl
    rw [h.symm.eq_nil]
  | some m =>
    have h1 := minQ_eq_some_iff.mp hl
    have h2 : l₂.min? = some m :=
      minQ_eq_some_iff.mpr ⟨h.mem_iff.mp h1.1, fun b hb => h1.2 b (h.mem_iff.mpr hb)⟩
    rw [listMinQ, listMinQ, hl, h2]

/-- The code's second-nearest distance (self included at 0) is the spec's
nearest-other distance, squared. -/
theorem codeNNSq_eq_spec (pts : List Point) (i : ℕ) (hi : i < pts.length) :
    codeNNSq pts i = specNNSq pts i := by
  have hmem : i ∈ List.range pts.length := List.mem_range.mpr hi
  have hperm : (List.range pts.length).Perm (i :: (List.range pts.length).erase i) :=
    List.perm_cons_erase hmem
  have hfi : sqDist (pts.getD i (0, 0)) (pts.getD i (0, 0)) = 0 := by simp [sqDist]
  have hlperm : (nnDistsSq pts i).Perm
      (0 :: ((List.range pts.length).erase i).map
        (fun j => sqDist (pts.getD i (0, 0)) (pts.getD j (0, 0)))) := by
    rw [nnDistsSq]
    have h2 := hperm.map (fun j => sqDist (pts.getD i (0, 0)) (pts.getD j (0, 0)))
    rw [List.map_cons, hfi] at h2
    exact h2
  have hnonneg : ∀ x ∈ nnDistsSq pts i, 0 ≤ x := by
    intro x hx
    rw [nnDistsSq, List.mem_map] at hx
    obtain ⟨j, -, rfl⟩ := hx
    unfold sqDist
    positivity
  have hmin0 : (nnDistsSq pts i).min? = some 0 :=
    minQ_eq_some_iff.mpr ⟨hlperm.mem_iff.mpr (List.mem_cons_self _ _), hnonneg⟩
  have hminQ : listMinQ (nnDistsSq pts i) = 0 := by rw [listMinQ, hmin0]; rfl
  have herase : ((nnDistsSq pts i).erase (listMinQ (nnDistsSq pts i))).Perm
      (((List.range pts.length).erase i).map
        (fun j => sqDist (pts.getD i (0, 0)) (pts.getD j (0, 0)))) := by
    rw [hminQ]
    have h3 := hlperm.erase 0
    rw [List.erase_cons_head] at h3
    exact h3
  rw [codeNNSq, listMinQ_perm herase, specNNSq,
    (List.nodup_range _).erase_eq_filter i]

/-- The spec's nearest-other squared distance is the least squared
distance to another point, attained by one of them. -/
theorem specNNSq_min_char (pts : List Point) (i : ℕ)
    (hn : 2 ≤ pts.length) (_hi : i < pts.length) :
    (∀ j, j < pts.length → j ≠ i →
      specNNSq pts i ≤ sqDist (pts.getD i (0, 0)) (pts.getD j (0, 0))) ∧
    ∃ j, j < pts.length ∧ j ≠ i ∧
      specNNSq pts i = sqDist (pts.getD i (0, 0)) (pts.getD j (0, 0)) := by
  have hwit : (if i = 0 then 1 else 0) ∈ (List.range pts.length).filter (· != i) := by
    rw [List.mem_filter, List.mem_range]
    constructor
    · split <;> omega
    · split
      · simp [bne_iff_ne]; omega
      · simp [bne_iff_ne]; omega
  have hne : (((List.range pts.length).filter (· != i)).map
      (fun j => sqDist (pts.getD i (0, 0)) (pts.getD j (0, 0)))) ≠ [] := by
    intro h
    rw [List.map_eq_nil_iff] at h
    rw [h] at hwit
    exact List.not_mem_nil _ hwit
  obtain ⟨m, hm⟩ : ∃ m, (((List.range pts.length).filter (· != i)).map
      (fun j => sqDist (pts.getD i (0, 0)) (pts.getD j (0, 0)))).min? = some m := by
    cases h : (((List.range pts.length).filter (· != i)).map
        (fun j => sqDist (pts.getD i (0, 0)) (pts.getD j (0, 0)))).min? with
    | none => rw [List.min?_eq_none_iff] at h; exact absurd h hne
    | some m => exact ⟨m, rfl⟩
  have hval : specNNSq pts i = m := by rw [specNNSq, listMinQ, hm]; rfl
  have hchar := minQ_eq_some_iff.mp hm
  constructor
  · intro j hj hji
    rw [hval]
    apply hchar.2
    rw [List.mem_map]
    refine ⟨j, ?_, rfl⟩
    rw [List.mem_filter, List.mem_range]
    exact ⟨hj, bne_iff_ne.mpr hji⟩
  · obtain ⟨j, hjf, hfj⟩ := List.mem_map.mp hchar.1
    rw [List.mem_filter, List.mem_range] at hjf
    exact ⟨j, hjf.1, bne_iff_ne.mp hjf.2, by rw [hval, ← hfj]⟩

/-- C9: for N < 2 the nearest-neighbour operation reports the error dict;
for N ≥ 2 it returns exactly the summary statistics (mean, median,
population std, min, max, 25/75/95th percentiles, 50-bin histogram) of
the list of per-point nearest-*other* distances: the distance the code
derives per point (second-nearest including self) is the least Euclidean
distance to another point and is attained, and two coincident points have
nearest-neighbour distance exactly 0. -/
theorem nn_distribution_spec (pts : List Point) :
    (pts.length < 2 →
      compute_nearest_neighbor_distribution pts = .error "Insufficient data points") ∧
    (2 ≤ pts.length →
      compute_nearest_neighbor_distribution pts =
        .ok (nnStatsOf ((List.range pts.length).map fun i => specNNDistR pts i)) ∧
      (∀ i, i < pts.length →
        (∀ j, j < pts.length → j ≠ i →
          specNNDistR pts i ≤ distR (pts.getD i (0, 0)) (pts.getD j (0, 0))) ∧
        ∃ j, j < pts.length ∧ j ≠ i ∧
          specNNDistR pts i = distR (pts.getD i (0, 0)) (pts.getD j (0, 0))) ∧
      (∀ i j, i < pts.length → j < pts.length → i ≠ j →
        pts.getD i (0, 0) = pts.getD j (0, 0) → specNNDistR pts i = 0)) := by
  refine ⟨fun h => by rw [compute_nearest_neighbor_distribution, if_pos h],
    fun hn => ⟨?_, ?_, ?_⟩⟩
  · rw [compute_nearest_neighbor_distribution, if_neg (not_lt.mpr hn)]
    congr 1
    rw [nnSqList, List.map_map]
    congr 1
    apply List.map_congr_left
    intro i hi
    rw [Function.comp_apply, codeNNSq_eq_spec pts i (List.mem_range.mp hi), specNNDistR]
  · intro i hi
    have hchar := specNNSq_min_char pts i hn hi
    constructor
    · intro j hj hji
      rw [specNNDistR, distR]
      exact Real.sqrt_le_sqrt (by exact_mod_cast hchar.1 j hj hji)
    · obtain ⟨j, hj, hji, hEq⟩ := hchar.2
      exact ⟨j, hj, hji, by rw [specNNDistR, distR, hEq]⟩
  · intro i j hi hj hij heq
    have hchar := specNNSq_min_char pts i (by omega) hi
    have hle : specNNSq pts i ≤ 0 := by
      have h0 := hchar.1 j hj (Ne.symm hij)
      rwa [heq, show sqDist (pts.getD j (0, 0)) (pts.getD j (0, 0)) = 0 by simp [sqDist]] at h0
    have hge : 0 ≤ specNNSq pts i := by
      obtain ⟨k, -, -, hEq⟩ := hchar.2
      rw [hEq]
      unfold sqDist
      positivity
    rw [specNNDistR, le_antisymm hle hge]
    simp

/-- Witness for `nn_distribution_spec`: two coincident points, whose
nearest-neighbour distance is exactly 0. -/
theorem nn_distribution_spec_witness :
    specNNDistR [((0 : ℚ), (0 : ℚ)), ((0 : ℚ), (0 : ℚ))] 0 = 0 := by
  exact ((nn_distribution_spec [((0 : ℚ), (0 : ℚ)), ((0 : ℚ), (0 : ℚ))]).2
    (by decide)).2.2 0 1 (by decide) (by decide) (by decide) rfl

/-- `listSwap` preserves length. -/
theorem listSwap_length {α : Type} (l : List α) (i j : ℕ) :
    (listSwap l i j).length = l.length := by
  unfold listSwap
  split <;> simp

/-- Swapping a position with itself is the identity. -/
theorem listSwap_self {α : Type} (l : List α) (i : ℕ) : listSwap l i i = l := by
  unfold listSwap
  split
  · rename_i h
    rw [List.set_set]
    apply List.ext_getElem?
    intro n
    by_cases hn : i = n
    · subst hn
      rw [List.getElem?_set_self h.1, List.getElem?_eq_getElem h.1]
      rfl
    · rw [List.getElem?_set_ne hn]
  · rfl

/-- Reading an index untouched by a swap. -/
theorem listSwap_getD_of_ne {α : Type} (l : List α) (i j k : ℕ) (d : α)
    (hk1 : k ≠ i) (hk2 : k ≠ j) : (listSwap l i j).getD k d = l.getD k d := by
  unfold listSwap
  split
  · rw [List.getD_eq_getElem?_getD, List.getElem?_set_ne (Ne.symm hk2),
      List.getElem?_set_ne (Ne.symm hk1), List.getD_eq_getElem?_getD]
  · rfl

/-- After the swap, position `j` holds the old value of position `i`. -/
theorem listSwap_getD_snd {α : Type} (l : List α) (i j : ℕ) (d : α)
    (hi : i < l.length) (hj : j < l.length) :
    (listSwap l i j).getD j d = l.getD i d := by
  unfold listSwap
  rw [dif_pos ⟨hi, hj⟩]
  rw [List.getD_eq_getElem?_getD, List.getElem?_set_self (by simpa using hj),
    Option.getD_some, List.getD_eq_getElem?_getD, List.getElem?_eq_getElem hi,
    Option.getD_some]
  rfl

/-- The shuffle preserves length. -/
theorem npShuffleAux_length (draws : ℕ → ℕ) (m : ℕ) (a : List ℕ) :
    (npShuffleAux draws m a).length = a.length := by
  induction m generalizing a with
  | zero => rfl
  | succ i ih => rw [npShuffleAux, ih, listSwap_length]

/-- With an all-zero draw stream, every step swaps with position 0, so the
final first entry is the original second entry. -/
theorem npShuffleAux_zero_getD (m : ℕ) (a : List ℕ) (h1 : 1 ≤ m) (hm : m < a.length) :
    (npShuffleAux (fun _ => 0) m a).getD 0 0 = a.getD 1 0 := by
  induction m generalizing a with
  | zero => omega
  | succ i ih =>
    rw [npShuffleAux]
    simp only [Nat.zero_mod]
    rcases Nat.eq_zero_or_pos i with rfl | hpos
    · rw [npShuffleAux]
      exact listSwap_getD_snd a 1 0 0 hm (by omega)
    · rw [ih _ hpos (by rw [listSwap_length]; omega)]
      exact listSwap_getD_of_ne a (i + 1) 0 1 0 (by omega) (by omega)

/-- With the draw stream `i ↦ i`, every swap is a self-swap: the shuffle
is the identity. -/
theorem npShuffleAux_id (m : ℕ) (a : List ℕ) :
    npShuffleAux (fun k => k) m a = a := by
  induction m generalizing a with
  | zero => rfl
  | succ i ih =>
    rw [npShuffleAux]
    have hmod : (i + 1) % (i + 2) = i + 1 := Nat.mod_eq_of_lt (by omega)
    simp only [hmod, listSwap_self, ih]

/-- The first point fitted by the subsampling stage, as a function of the
ambient draw stream. -/
theorem kdeSample_head (pts : List Point) (draws : ℕ → ℕ) (h : 50000 < pts.length) :
    (kdeSample pts draws).getD 0 (0, 0) =
      pts.getD ((npPermutation draws pts.length).getD 0 0) (0, 0) := by
  rw [kdeSample, if_pos h, npChoiceNoReplace]
  have hlen : (npPermutation draws pts.length).length = pts.length := by
    rw [npPermutation, npShuffleAux_length, List.length_range]
  have h0 : ((npPermutation draws pts.length).take 50000)[0]? =
      some ((npPermutation draws pts.length).getD 0 0) := by
    rw [List.getElem?_take_of_lt (by omega), List.getD_eq_getElem?_getD,
      List.getElem?_eq_getElem (by omega)]
    rfl
  rw [List.getD_eq_getElem?_getD, List.getElem?_map, h0, Option.map_some', Option.getD_some]

/-- C1: the `compute_kde` subsample is *not* a function of the input and a
seed: below the cap the sample is deterministic, but on 50,001 distinct
points two states of the ambient global generator (an all-zero draw
stream versus the stream `i ↦ i`) select different subsamples for the
same input — `compute_kde` takes no seed and reads the process-global
`np.random` state. -/
theorem kde_subsample_global_rng :
    (∀ (pts : List Point) (d d' : ℕ → ℕ), pts.length ≤ 50000 →
      kdeSample pts d = kdeSample pts d') ∧
    kdeSample kdeDemoPts (fun _ => 0) ≠ kdeSample kdeDemoPts (fun k => k) := by
  constructor
  · intro pts d d' h
    rw [kdeSample, kdeSample, if_neg (by omega), if_neg (by omega)]
  · intro hEq
    have hlen : kdeDemoPts.length = 50001 := by
      rw [kdeDemoPts, List.length_map, List.length_range]
    have hgt : 50000 < kdeDemoPts.length := by omega
    have hL := kdeSample_head kdeDemoPts (fun _ => 0) hgt
    have hR := kdeSample_head kdeDemoPts (fun k => k) hgt
    have hperm0 : (npPermutation (fun _ => 0) kdeDemoPts.length).getD 0 0 = 1 := by
      rw [hlen, npPermutation]
      have h50 : (50001 : ℕ) - 1 = 50000 := by norm_num
      rw [h50, npShuffleAux_zero_getD 50000 (List.range 50001) (by norm_num)
        (by rw [List.length_range]; norm_num),
        List.getD_eq_getElem?_getD, List.getElem?_range (by norm_num), Option.getD_some]
    have hpermId : (npPermutation (fun k => k) kdeDemoPts.length).getD 0 0 = 0 := by
      rw [npPermutation, npShuffleAux_id, List.getD_eq_getElem?_getD,
        List.getElem?_range (by omega), Option.getD_some]
    rw [hEq, hR, hpermId] at hL
    rw [hperm0] at hL
    have h1 : kdeDemoPts.getD 1 (0, 0) = ((1 : ℚ), (0 : ℚ)) := by
      rw [kdeDemoPts, List.getD_eq_getElem?_getD, List.getElem?_map,
        List.getElem?_range (by norm_num)]
      rfl
    have h0 : kdeDemoPts.getD 0 (0, 0) = ((0 : ℚ), (0 : ℚ)) := by
      rw [kdeDemoPts, List.getD_eq_getElem?_getD, List.getElem?_map,
        List.getElem?_range (by norm_num)]
      rfl
    rw [h0, h1] at hL
    exact absurd (congrArg Prod.fst hL) (by norm_num)

/-- Witness for `kde_subsample_global_rng`: below the cap the sample is
the input itself under any two generator states. -/
theorem kde_subsample_global_rng_witness :
    kdeSample [((3 : ℚ), (4 : ℚ))] (fun _ => 0) = kdeSample [((3 : ℚ), (4 : ℚ))] (fun k => k) :=
  kde_subsample_global_rng.1 [((3 : ℚ), (4 : ℚ))] (fun _ => 0) (fun k => k) (by decide)

/-- Witness for `ripleys_k_formulas`: a concrete two-point input satisfies
its hypotheses and yields a success result. -/
theorem ripleys_k_formulas_witness :
    (compute_ripleys_k [((0 : ℚ), (0 : ℚ)), ((3 : ℚ), (0 : ℚ))] [1, 5] 10).isError = false := by
  obtain ⟨res, heq, -⟩ :=
    ripleys_k_formulas [((0 : ℚ), (0 : ℚ)), ((3 : ℚ), (0 : ℚ))] [1, 5] 10
      (by decide) (by norm_num [List.chain'_cons]) (by decide)
  rw [heq]
  rfl

end SpatialPathDB
